import Mathlib

/-!
Shallow embedding of the quality-control core of admTools (the Python sources
under src/tests, chiefly v0142-beta.py with the v014-beta.py variants embedded
where the two differ).  Weights and lengths are Python floats used only in
order comparisons, so they are embedded as rationals; timestamps are opaque
strings threaded in as parameters (the Python code reads the wall clock);
file writes are modelled as fields of the state holding the last successfully
written documents, and the success of a write is an explicit Boolean
parameter.  The bcrypt hash check is an opaque function parameter.
-/

namespace AdmTools

/-- Python `str.upper()` on the character list (ASCII case mapping). -/
def pyUpper (s : String) : String := ⟨s.data.map Char.toUpper⟩

/-- Python `str.lower()` on the character list (ASCII case mapping). -/
def pyLower (s : String) : String := ⟨s.data.map Char.toLower⟩

/-- Python `str.strip()`: removes leading and trailing whitespace. -/
def pyStrip (s : String) : String :=
  ⟨((s.data.dropWhile Char.isWhitespace).reverse.dropWhile Char.isWhitespace).reverse⟩

/-- Acceptance criteria, the `criterios_qualidade` entry of the configuration
(`CONFIG_PADRAO` and the administrator update path). -/
structure Criterios where
  peso_min : ℚ
  peso_max : ℚ
  cores_aceitas : List String
  comprimento_min : ℚ
  comprimento_max : ℚ
deriving DecidableEq, Repr

/-- Default criteria from `ConfiguracaoSistema.CONFIG_PADRAO`. -/
def criteriosPadrao : Criterios :=
  { peso_min := 95, peso_max := 105, cores_aceitas := ["azul", "verde"],
    comprimento_min := 10, comprimento_max := 20 }

/-- A part (`Peca`, v0142-beta.py lines 390-454). -/
structure Peca where
  id_peca : String
  peso : ℚ
  cor : String
  comprimento : ℚ
  usuario : String
  timestamp : String
  turno : String
  aprovada : Bool
  motivos_reprovacao : List String
deriving DecidableEq, Repr

/-- Constructor `Peca.__init__`: normalizes the id with `.upper().strip()` and
the color with `.lower().strip()`; the timestamp and shift, read from the
clock in Python, are taken as parameters. -/
def Peca.init (id_peca : String) (peso : ℚ) (cor : String) (comprimento : ℚ)
    (usuario : String) (timestamp : String) (turno : String) : Peca :=
  { id_peca := pyStrip (pyUpper id_peca), peso := peso, cor := pyStrip (pyLower cor),
    comprimento := comprimento, usuario := usuario, timestamp := timestamp,
    turno := turno, aprovada := false, motivos_reprovacao := [] }

/-- The weight rejection reason string built by `Peca.validar`. -/
def msgPeso (peso pmin pmax : ℚ) : String :=
  s!"Peso fora do padrão: {peso}g (esperado: {pmin}-{pmax}g)"

/-- The color rejection reason string built by `Peca.validar`; the accepted
colors are joined with a comma as in the source. -/
def msgCor (cor : String) (cores : List String) : String :=
  let cores_aceitas := String.intercalate ", " cores
  s!"Cor não aprovada: {cor} (esperado: {cores_aceitas})"

/-- The length rejection reason string built by `Peca.validar`. -/
def msgComprimento (comprimento cmin cmax : ℚ) : String :=
  s!"Comprimento fora do padrão: {comprimento}cm (esperado: {cmin}-{cmax}cm)"

/-- Validation (`Peca.validar`, v0142-beta.py lines 415-439): resets the
reason list, appends one reason per failing check in the order weight, color,
length, and sets `aprovada` to whether the list is empty. -/
def Peca.validar (p : Peca) (criterios : Criterios) : Peca :=
  let motivos0 : List String := []
  let motivos1 :=
    if ¬ (criterios.peso_min ≤ p.peso ∧ p.peso ≤ criterios.peso_max) then
      motivos0 ++ [msgPeso p.peso criterios.peso_min criterios.peso_max]
    else motivos0
  let motivos2 :=
    if ¬ (p.cor ∈ criterios.cores_aceitas) then
      motivos1 ++ [msgCor p.cor criterios.cores_aceitas]
    else motivos1
  let motivos3 :=
    if ¬ (criterios.comprimento_min ≤ p.comprimento ∧ p.comprimento ≤ criterios.comprimento_max) then
      motivos2 ++ [msgComprimento p.comprimento criterios.comprimento_min criterios.comprimento_max]
    else motivos2
  { p with motivos_reprovacao := motivos3, aprovada := motivos3.isEmpty }

/-- A container (`Caixa`, v0142-beta.py lines 456-505). -/
structure Caixa where
  numero : ℕ
  capacidade : ℕ
  pecas : List Peca
  data_fechamento : Option String
  usuario_fechamento : String
  data_criacao : String
deriving DecidableEq, Repr

/-- Constructor `Caixa.__init__`. -/
def Caixa.init (numero : ℕ) (capacidade : ℕ) (data_criacao : String) : Caixa :=
  { numero := numero, capacidade := capacidade, pecas := [],
    data_fechamento := none, usuario_fechamento := "", data_criacao := data_criacao }

/-- Closing a container (`Caixa.fechar`): stamps `data_fechamento` with the
current time and records who closed it. -/
def Caixa.fechar (c : Caixa) (now : String) (usuario : String) : Caixa :=
  { c with data_fechamento := some now, usuario_fechamento := usuario }

/-- Adding a part to a container (`Caixa.adicionar_peca`, v0142-beta.py lines
467-478): appends only when there is room, and closes the container in place
when the append brings it to capacity.  Returns the updated container and the
Python return value. -/
def Caixa.adicionar_peca (c : Caixa) (now : String) (peca : Peca) : Caixa × Bool :=
  if c.pecas.length < c.capacidade then
    let c1 := { c with pecas := c.pecas ++ [peca] }
    let c2 := if c1.capacidade ≤ c1.pecas.length then c1.fechar now peca.usuario else c1
    (c2, true)
  else (c, false)

/-- Whether the container is full (`Caixa.esta_cheia`). -/
def Caixa.esta_cheia (c : Caixa) : Bool := c.capacidade ≤ c.pecas.length

/-- The ledger (`BancoDados`): the three in-memory collections and the open
container, plus the configuration values the operations read and the last
successfully written on-disk documents (parts document and containers
document, `salvar_dados`). -/
structure BancoDados where
  pecas_aprovadas : List Peca
  pecas_reprovadas : List Peca
  caixas_fechadas : List Caixa
  caixa_atual : Caixa
  capacidade_caixa : ℕ
  criterios : Criterios
  disco_pecas : Option (List Peca × List Peca)
  disco_caixas : Option (List Caixa × Caixa)
deriving DecidableEq, Repr

/-- Initial ledger state: empty collections and a fresh container number 1
(`BancoDados.__init__` with no data files on disk). -/
def estadoInicial (capacidade : ℕ) (criterios : Criterios) : BancoDados :=
  { pecas_aprovadas := [], pecas_reprovadas := [], caixas_fechadas := [],
    caixa_atual := Caixa.init 1 capacidade "", capacidade_caixa := capacidade,
    criterios := criterios, disco_pecas := none, disco_caixas := none }

/-- Persistence (`BancoDados.salvar_dados`, v0142-beta.py lines 604-632):
writes the parts document and the containers document and returns True; a
failed write (disk fault) changes nothing on disk and returns False.  The
best-effort backup copy it makes first does not touch ledger state. -/
def BancoDados.salvar_dados (db : BancoDados) (diskOk : Bool) : BancoDados × Bool :=
  if diskOk then
    ({ db with disco_pecas := some (db.pecas_aprovadas, db.pecas_reprovadas),
               disco_caixas := some (db.caixas_fechadas, db.caixa_atual) }, true)
  else (db, false)

/-- Recording a part (`BancoDados.adicionar_peca`, v0142-beta.py lines
682-717): duplicate-id check over approved plus rejected, validation, packing
with container rollover, then persistence whose result is discarded. -/
def BancoDados.adicionar_peca (db : BancoDados) (now : String) (diskOk : Bool)
    (peca : Peca) : BancoDados × Bool × String :=
  if (db.pecas_aprovadas ++ db.pecas_reprovadas).any (fun p => p.id_peca == peca.id_peca) then
    (db, false, s!"ID {peca.id_peca} já existe no sistema")
  else
    let peca := peca.validar db.criterios
    let db1 :=
      if peca.aprovada then
        let dbA := { db with pecas_aprovadas := db.pecas_aprovadas ++ [peca] }
        let r := dbA.caixa_atual.adicionar_peca now peca
        let dbB :=
          if r.2 then { dbA with caixa_atual := r.1 }
          else
            let fechadas := dbA.caixas_fechadas ++ [dbA.caixa_atual]
            let nova := Caixa.init (fechadas.length + 1) dbA.capacidade_caixa now
            { dbA with caixas_fechadas := fechadas,
                       caixa_atual := (nova.adicionar_peca now peca).1 }
        if dbB.caixa_atual.esta_cheia then
          let fechadas := dbB.caixas_fechadas ++ [dbB.caixa_atual]
          { dbB with caixas_fechadas := fechadas,
                     caixa_atual := Caixa.init (fechadas.length + 1) dbB.capacidade_caixa now }
        else dbB
      else
        { db with pecas_reprovadas := db.pecas_reprovadas ++ [peca] }
    let saved := db1.salvar_dados diskOk
    (saved.1, true, "Peça adicionada com sucesso")

/-- Removes the first part with the given id from a list (the Python loops
that delete the first index whose id matches and break). -/
def removeFirstById : List Peca → String → List Peca
  | [], _ => []
  | p :: ps, id => if p.id_peca == id then ps else p :: removeFirstById ps id

/-- Removing a part (`BancoDados.remover_peca`, v0142-beta.py lines 776-803):
normalizes the id, deletes the first match from approved (also deleting it
from the open container if present there) or else from rejected, then
persists; closed containers are never touched. -/
def BancoDados.remover_peca (db : BancoDados) (diskOk : Bool) (id_peca : String) :
    BancoDados × Bool × String :=
  let id := pyStrip (pyUpper id_peca)
  if db.pecas_aprovadas.any (fun p => p.id_peca == id) then
    let db1 := { db with
      pecas_aprovadas := removeFirstById db.pecas_aprovadas id,
      caixa_atual := { db.caixa_atual with pecas := removeFirstById db.caixa_atual.pecas id } }
    ((db1.salvar_dados diskOk).1, true, s!"Peça {id} removida com sucesso")
  else if db.pecas_reprovadas.any (fun p => p.id_peca == id) then
    let db1 := { db with pecas_reprovadas := removeFirstById db.pecas_reprovadas id }
    ((db1.salvar_dados diskOk).1, true, s!"Peça {id} removida com sucesso")
  else
    (db, false, s!"Peça {id} não encontrada")

/-- Overwrites every part with the given id in a list.  In Python the edit
mutates the one shared `Peca` object, so every list that aliases it (the
collection that holds the part and any container it sits in) sees the update;
ids are unique across the live collections, so updating by id captures that
aliasing. -/
def updateById (ps : List Peca) (id : String) (novo : Peca) : List Peca :=
  ps.map (fun p => if p.id_peca == id then novo else p)

/-- Field update performed by `editar_peca` before revalidation: new weight
and length, and the new color lowercased (no strip here, unlike the
constructor). -/
def atualizarCampos (p : Peca) (novo_peso : ℚ) (nova_cor : String)
    (novo_comprimento : ℚ) : Peca :=
  { p with peso := novo_peso, cor := pyLower nova_cor, comprimento := novo_comprimento }

/-- Editing a part (`BancoDados.editar_peca`, v0142-beta.py lines 719-774):
finds the part in approved (else rejected), overwrites its fields in place
(visible through every alias), revalidates, and moves it between collections
when the verdict flips — removing it from the open container when it turns
rejected, and calling `Caixa.adicionar_peca` on the open container (result
ignored) when it turns approved.  Persists at the end of either found branch. -/
def BancoDados.editar_peca (db : BancoDados) (now : String) (diskOk : Bool)
    (id_peca : String) (novo_peso : ℚ) (nova_cor : String) (novo_comprimento : ℚ) :
    BancoDados × Bool × String :=
  let id := pyStrip (pyUpper id_peca)
  match db.pecas_aprovadas.find? (fun p => p.id_peca == id) with
  | some peca0 =>
    let peca := (atualizarCampos peca0 novo_peso nova_cor novo_comprimento).validar db.criterios
    let db1 := { db with
      pecas_aprovadas := updateById db.pecas_aprovadas id peca,
      caixa_atual := { db.caixa_atual with pecas := updateById db.caixa_atual.pecas id peca },
      caixas_fechadas := db.caixas_fechadas.map
        (fun c : Caixa => { c with pecas := updateById c.pecas id peca }) }
    let db2 :=
      if ¬ peca.aprovada then
        { db1 with
          pecas_aprovadas := removeFirstById db1.pecas_aprovadas id,
          pecas_reprovadas := db1.pecas_reprovadas ++ [peca],
          caixa_atual := { db1.caixa_atual with pecas := removeFirstById db1.caixa_atual.pecas id } }
      else db1
    ((db2.salvar_dados diskOk).1, true, "Peça editada com sucesso")
  | none =>
    match db.pecas_reprovadas.find? (fun p => p.id_peca == id) with
    | some peca0 =>
      let peca := (atualizarCampos peca0 novo_peso nova_cor novo_comprimento).validar db.criterios
      let db1 := { db with
        pecas_reprovadas := updateById db.pecas_reprovadas id peca,
        caixa_atual := { db.caixa_atual with pecas := updateById db.caixa_atual.pecas id peca },
        caixas_fechadas := db.caixas_fechadas.map
          (fun c : Caixa => { c with pecas := updateById c.pecas id peca }) }
      let db2 :=
        if peca.aprovada then
          let dbA := { db1 with
            pecas_reprovadas := removeFirstById db1.pecas_reprovadas id,
            pecas_aprovadas := db1.pecas_aprovadas ++ [peca] }
          { dbA with caixa_atual := (dbA.caixa_atual.adicionar_peca now peca).1 }
        else db1
      ((db2.salvar_dados diskOk).1, true, "Peça editada com sucesso")
    | none => (db, false, s!"Peça {id} não encontrada")

/-- The mutating ledger operations an external caller can invoke. -/
inductive Op where
  | record (now : String) (diskOk : Bool) (peca : Peca)
  | remove (diskOk : Bool) (id : String)
  | edit (now : String) (diskOk : Bool) (id : String) (peso : ℚ) (cor : String) (comprimento : ℚ)
deriving DecidableEq, Repr

/-- One ledger operation applied to the state. -/
def step (db : BancoDados) : Op → BancoDados
  | .record now ok p => (db.adicionar_peca now ok p).1
  | .remove ok id => (db.remover_peca ok id).1
  | .edit now ok id w c l => (db.editar_peca now ok id w c l).1

/-- A sequence of ledger operations applied from a starting state. -/
def run (db : BancoDados) (ops : List Op) : BancoDados := ops.foldl step db

/-- An audit record (`ConfiguracaoSistema.registrar_auditoria` entries). -/
structure AuditEntry where
  timestamp : String
  usuario : String
  acao : String
  detalhes : String
deriving DecidableEq, Repr

/-- Python negative-offset slice `l[-n:]`: the last `n` elements (the whole
list when it is shorter than `n`). -/
def pyLastN (n : ℕ) (l : List AuditEntry) : List AuditEntry := l.drop (l.length - n)

/-- Audit append (`ConfiguracaoSistema.registrar_auditoria`, v014-beta.py
lines 147-168): appends the new entry to the stored list and keeps only the
most recent 1000 records. -/
def registrar_auditoria (auditoria : List AuditEntry) (e : AuditEntry) : List AuditEntry :=
  pyLastN 1000 (auditoria ++ [e])

/-- A user record (`SistemaAutenticacao` user dictionaries). -/
structure Usuario where
  senha : String
  nome_completo : String
  nivel : String
  data_criacao : String
  ultimo_login : Option String
  ativo : Bool
deriving DecidableEq, Repr

/-- State of the authentication system: the users document plus the log file
and the audit document that the operations append to. -/
structure SistemaAutenticacao where
  usuarios : List (String × Usuario)
  logs : List String
  auditoria : List AuditEntry
deriving DecidableEq, Repr

/-- Dictionary lookup `usuario in self.usuarios` / `self.usuarios[usuario]`. -/
def lookupUsuario (usuarios : List (String × Usuario)) (nome : String) : Option Usuario :=
  (usuarios.find? (fun kv => kv.1 == nome)).map (fun kv => kv.2)

/-- Dictionary update `self.usuarios[usuario] = ...` for an existing key. -/
def setUsuario (usuarios : List (String × Usuario)) (nome : String) (u : Usuario) :
    List (String × Usuario) :=
  usuarios.map (fun kv => if kv.1 == nome then (nome, u) else kv)

/-- Authentication as written in v014-beta.py lines 249-269: an inactive user
is turned away with no log line at all; a successful login stamps
`ultimo_login`, writes a log line and an audit entry; any other failure
(unknown user or wrong password) writes a log line.  `checkpw` is the opaque
bcrypt verification. -/
def autenticarV014 (checkpw : String → String → Bool) (now : String)
    (s : SistemaAutenticacao) (usuario senha : String) :
    SistemaAutenticacao × Bool × Option Usuario :=
  match lookupUsuario s.usuarios usuario with
  | some u =>
    if ¬ u.ativo then (s, false, none)
    else if checkpw senha u.senha then
      let u1 := { u with ultimo_login := some now }
      let s1 := { s with
        usuarios := setUsuario s.usuarios usuario u1,
        logs := s.logs ++ [s!"Login: {usuario}"] }
      let s2 := { s1 with
        auditoria := registrar_auditoria s1.auditoria ⟨now, usuario, "LOGIN", "Login bem-sucedido"⟩ }
      (s2, true, some u1)
    else
      ({ s with logs := s.logs ++ [s!"Login falhou: {usuario}"] }, false, none)
  | none =>
    ({ s with logs := s.logs ++ [s!"Login falhou: {usuario}"] }, false, none)

/-- Authentication as written in v0142-beta.py lines 249-274: every outcome —
inactive user, wrong password, unknown user, success — writes exactly one log
line; success stamps `ultimo_login`.  This variant writes no audit entry. -/
def autenticarV0142 (checkpw : String → String → Bool) (now : String)
    (s : SistemaAutenticacao) (usuario senha : String) :
    SistemaAutenticacao × Bool × Option Usuario :=
  match lookupUsuario s.usuarios usuario with
  | some u =>
    if ¬ u.ativo then
      ({ s with logs := s.logs ++ [s!"Tentativa de login com usuário inativo: {usuario}"] }, false, none)
    else if checkpw senha u.senha then
      let u1 := { u with ultimo_login := some now }
      let s1 := { s with
        usuarios := setUsuario s.usuarios usuario u1,
        logs := s.logs ++ [s!"Login bem-sucedido: {usuario}"] }
      (s1, true, some u1)
    else
      ({ s with logs := s.logs ++ [s!"Tentativa de login falhou: {usuario}"] }, false, none)
  | none =>
    ({ s with logs := s.logs ++ [s!"Tentativa de login falhou: {usuario}"] }, false, none)

/-- The role ranking dictionary of the permission decorator
(`requer_permissao`, v014-beta.py line 176). -/
def niveis : List (String × ℕ) := [("operador", 0), ("supervisor", 1), ("administrador", 2)]

/-- Rank lookup `niveis.get(x, 0)`: unknown names rank 0. -/
def nivelDe (nome : String) : ℕ :=
  ((niveis.find? (fun kv => kv.1 == nome)).map (fun kv => kv.2)).getD 0

/-- The permission gate (`requer_permissao`, v014-beta.py lines 174-197): the
wrapped action runs iff the caller's rank is at least the required rank; a
denial returns normally (no exception) after recording an access-denied audit
entry naming the attempted action. -/
def requer_permissao (nivel_minimo : String) (nivel_usuario : String)
    (usuario : String) (auditoria : List AuditEntry) (now funcName : String) :
    Bool × List AuditEntry :=
  if nivelDe nivel_minimo ≤ nivelDe nivel_usuario then (true, auditoria)
  else
    (false, registrar_auditoria auditoria
      ⟨now, usuario, "ACESSO_NEGADO", s!"Tentativa de acessar {funcName}"⟩)

/-- The in-memory part of the ledger state: the three collections and the
current container, excluding the persisted documents. -/
def memoria (db : BancoDados) : List Peca × List Peca × List Caixa × Caixa :=
  (db.pecas_aprovadas, db.pecas_reprovadas, db.caixas_fechadas, db.caixa_atual)

/-- The capacity bound of C4: no container, current or closed, holds more
parts than its capacity. -/
def caixasLimitadas (db : BancoDados) : Prop :=
  db.caixa_atual.pecas.length ≤ db.caixa_atual.capacidade ∧
  ∀ c ∈ db.caixas_fechadas, c.pecas.length ≤ c.capacidade

/-- The ledger consistency invariant maintained by the record operation:
capacity is positive, the current container has the configured capacity and
strictly fewer parts than it, the archived containers' parts followed by the
current container's parts are exactly the approved collection, and ids are
unique across approved and rejected. -/
def consistenteLedger (db : BancoDados) : Prop :=
  1 ≤ db.capacidade_caixa ∧
  db.caixa_atual.capacidade = db.capacidade_caixa ∧
  db.caixa_atual.pecas.length < db.caixa_atual.capacidade ∧
  (db.caixas_fechadas.flatMap (fun c => c.pecas)) ++ db.caixa_atual.pecas =
    db.pecas_aprovadas ∧
  ((db.pecas_aprovadas ++ db.pecas_reprovadas).map (fun p => p.id_peca)).Nodup

/-- A sequence of record submissions of the given parts, one per part, run
from the empty initial ledger. -/
def runRecords (C : ℕ) (crit : Criterios) (now : String) (ps : List Peca) : BancoDados :=
  run (estadoInicial C crit) (ps.map (fun p => Op.record now true p))

/-- The administrator criteria update path for accepted colors (v0142-beta.py
line 2127): each entered color is stripped and lowercased before being stored
in the criteria, so every criteria store the system can hold keeps its colors
in lowercase normal form. -/
def atualizarCoresAceitas (entradas : List String) : List String :=
  entradas.map (fun cor => pyLower (pyStrip cor))

/-! Helper lemmas shared by several results. -/

/-- Validation never changes the id of a part. -/
theorem validar_id (p : Peca) (crit : Criterios) : (p.validar crit).id_peca = p.id_peca := rfl

/-- A duplicate id makes `adicionar_peca` return failure without touching any
state, in-memory or on disk. -/
theorem adicionar_duplicado (db : BancoDados) (now : String) (diskOk : Bool) (p : Peca)
    (h : ∃ q ∈ db.pecas_aprovadas ++ db.pecas_reprovadas, q.id_peca = p.id_peca) :
    db.adicionar_peca now diskOk p = (db, false, s!"ID {p.id_peca} já existe no sistema") := by
  obtain ⟨q, hq, hid⟩ := h
  unfold BancoDados.adicionar_peca
  rw [if_pos]
  exact List.any_eq_true.mpr ⟨q, hq, by simp [hid]⟩

end AdmTools

namespace AdmTools

/-- C3: recording a part whose id already occurs in approved or rejected fails
with the duplicate-id message and leaves the whole ledger state — the three
collections, the current container and the persisted documents — exactly as it
was; in particular no write is performed, since the state equality covers the
on-disk document fields. -/
theorem registro_duplicado_sem_efeito (db : BancoDados) (now : String) (diskOk : Bool)
    (p : Peca) (h : p.id_peca ∈ (db.pecas_aprovadas ++ db.pecas_reprovadas).map Peca.id_peca) :
    db.adicionar_peca now diskOk p = (db, false, s!"ID {p.id_peca} já existe no sistema") := by
  obtain ⟨q, hq, hid⟩ := List.mem_map.mp h
  exact adicionar_duplicado db now diskOk p ⟨q, hq, hid⟩

/-- Witness for `registro_duplicado_sem_efeito` on a concrete ledger holding a
part with id P1 and a resubmission of the same id. -/
theorem registro_duplicado_sem_efeito_witness :
    let db := (estadoInicial 2 criteriosPadrao).adicionar_peca "t1" true
      (Peca.init "p1" 100 "azul" 15 "op" "t1" "M") |>.1
    let p2 := Peca.init " p1 " 90 "rojo" 5 "op" "t2" "M"
    db.adicionar_peca "t2" true p2 = (db, false, s!"ID {p2.id_peca} já existe no sistema") := by
  exact registro_duplicado_sem_efeito _ "t2" true _ (by decide)

/-- C8: the permission gate grants access exactly when the caller's role rank
reaches the required rank; the grant is monotone along the role order
Operator < Supervisor < Administrator (a lower requirement can only keep
succeeding); and a denial returns normally with an access-denied audit entry
recorded (no fatal error — the gate is a total function). -/
theorem rbac_monotonia_e_decisao (nivel_usuario r r' usuario now fn : String)
    (aud : List AuditEntry) :
    ((requer_permissao r nivel_usuario usuario aud now fn).1 = true ↔
      nivelDe r ≤ nivelDe nivel_usuario) ∧
    (nivelDe r' ≤ nivelDe r →
      (requer_permissao r nivel_usuario usuario aud now fn).1 = true →
      (requer_permissao r' nivel_usuario usuario aud now fn).1 = true) ∧
    ((requer_permissao r nivel_usuario usuario aud now fn).1 = false →
      (requer_permissao r nivel_usuario usuario aud now fn).2 =
        registrar_auditoria aud ⟨now, usuario, "ACESSO_NEGADO", s!"Tentativa de acessar {fn}"⟩) := by
  refine ⟨?_, ?_, ?_⟩
  · unfold requer_permissao
    split_ifs with h <;> simp [h]
  · intro hle h1
    unfold requer_permissao at h1 ⊢
    by_cases h : nivelDe r ≤ nivelDe nivel_usuario
    · rw [if_pos (le_trans hle h)]
    · rw [if_neg h] at h1
      exact absurd h1 (by simp)
  · intro h1
    unfold requer_permissao at h1 ⊢
    by_cases h : nivelDe r ≤ nivelDe nivel_usuario
    · rw [if_pos h] at h1
      exact absurd h1 (by simp)
    · rw [if_neg h]

/-- Witness for `rbac_monotonia_e_decisao`: an administrator passing a
supervisor gate also passes the operator gate, and an operator denied the
administrator gate gets the audit entry. -/
theorem rbac_monotonia_e_decisao_witness :
    (requer_permissao "operador" "administrador" "ana" [] "t" "f").1 = true ∧
    (requer_permissao "administrador" "operador" "ana" [] "t" "f").2 =
      registrar_auditoria [] ⟨"t", "ana", "ACESSO_NEGADO", "Tentativa de acessar f"⟩ := by
  have h1 := rbac_monotonia_e_decisao "administrador" "supervisor" "operador" "ana" "t" "f" []
  have h2 := rbac_monotonia_e_decisao "operador" "administrador" "administrador" "ana" "t" "f" []
  exact ⟨h1.2.1 (by decide) ((h1.1).mpr (by decide)), h2.2.2 (by decide)⟩

/-- The length of a Python tail slice. -/
theorem pyLastN_length (n : ℕ) (l : List AuditEntry) :
    (pyLastN n l).length = min n l.length := by
  unfold pyLastN
  rw [List.length_drop]
  omega

/-- Re-trimming after an append: trimming the already-trimmed log and the raw
log give the same tail slice. -/
theorem pyLastN_append_single (n : ℕ) (l : List AuditEntry) (e : AuditEntry) :
    pyLastN n (pyLastN n l ++ [e]) = pyLastN n (l ++ [e]) := by
  rcases le_or_lt n l.length with h | h
  · rcases Nat.eq_zero_or_pos n with h0 | h0
    · subst h0
      have hz : ∀ x : List AuditEntry, pyLastN 0 x = [] := by
        intro x
        unfold pyLastN
        exact List.drop_eq_nil_of_le (by omega)
      rw [hz, hz]
    · have hlen : (l.drop (l.length - n)).length = n := by
        rw [List.length_drop]; omega
      calc pyLastN n (pyLastN n l ++ [e])
          = (l.drop (l.length - n) ++ [e]).drop 1 := by
            unfold pyLastN
            rw [show (l.drop (l.length - n) ++ [e]).length - n = 1 by
              rw [List.length_append, hlen]; simp]
        _ = (l.drop (l.length - n)).drop 1 ++ [e] :=
            List.drop_append_of_le_length (by rw [hlen]; omega)
        _ = l.drop ((l.length - n) + 1) ++ [e] := by rw [List.drop_drop]
        _ = l.drop (l.length + 1 - n) ++ [e] := by
            rw [show (l.length - n) + 1 = l.length + 1 - n by omega]
        _ = (l ++ [e]).drop (l.length + 1 - n) :=
            (List.drop_append_of_le_length (by omega)).symm
        _ = pyLastN n (l ++ [e]) := by
            unfold pyLastN
            congr 1
            simp
  · unfold pyLastN
    rw [Nat.sub_eq_zero_of_le (le_of_lt h), List.drop_zero]

/-- Folding audit appends from a trimmed log is the trim of the whole
concatenation. -/
theorem foldl_registrar_auditoria (es A : List AuditEntry) :
    es.foldl registrar_auditoria (pyLastN 1000 A) = pyLastN 1000 (A ++ es) := by
  induction es generalizing A with
  | nil => simp
  | cons e es ih =>
    have h1 : registrar_auditoria (pyLastN 1000 A) e = pyLastN 1000 (A ++ [e]) :=
      pyLastN_append_single 1000 A e
    rw [List.foldl_cons, h1, ih (A ++ [e]), List.append_assoc]
    rfl

/-- C9: every audit append keeps exactly the last 1000 entries of the old log
followed by the new entry, so the log never exceeds 1000 entries; and 1001
sequential audited actions from an empty log leave exactly the most recent
1000, the oldest entry evicted. -/
theorem auditoria_limitada_a_1000 :
    (∀ (aud : List AuditEntry) (e : AuditEntry),
        registrar_auditoria aud e = pyLastN 1000 (aud ++ [e]) ∧
        (registrar_auditoria aud e).length ≤ 1000) ∧
    (∀ es : List AuditEntry, es.length = 1001 →
        es.foldl registrar_auditoria [] = es.drop 1 ∧
        (es.foldl registrar_auditoria []).length = 1000) := by
  constructor
  · intro aud e
    refine ⟨rfl, ?_⟩
    rw [show registrar_auditoria aud e = pyLastN 1000 (aud ++ [e]) from rfl, pyLastN_length]
    omega
  · intro es hlen
    have h0 : ([] : List AuditEntry) = pyLastN 1000 [] := rfl
    have h1 : es.foldl registrar_auditoria [] = pyLastN 1000 es := by
      rw [h0, foldl_registrar_auditoria es []]
      rfl
    constructor
    · rw [h1]
      unfold pyLastN
      rw [hlen]
    · rw [h1, pyLastN_length, hlen]
      omega

/-- Witness for `auditoria_limitada_a_1000` on a concrete sequence of 1001
distinct audit entries. -/
theorem auditoria_limitada_a_1000_witness :
    ((List.range 1001).map (fun i => AuditEntry.mk (toString i) "u" "a" "")).foldl
        registrar_auditoria [] =
      ((List.range 1001).map (fun i => AuditEntry.mk (toString i) "u" "a" "")).drop 1 ∧
    (((List.range 1001).map (fun i => AuditEntry.mk (toString i) "u" "a" "")).foldl
        registrar_auditoria []).length = 1000 := by
  exact auditoria_limitada_a_1000.2 _ (by simp)

/-- C10: part identity is normalized at the interface: the stored id is the
uppercased, stripped form of the submitted id; a resubmission whose id differs
only by case or surrounding whitespace (same normal form) is rejected as a
duplicate with no state change; and removal locates a stored part from any id
with the same normal form. -/
theorem identidade_de_peca_normalizada (id1 id2 : String) (db : BancoDados)
    (now : String) (diskOk : Bool) (w : ℚ) (c : String) (l : ℚ) (u t s : String) :
    ((Peca.init id1 w c l u t s).id_peca = pyStrip (pyUpper id1)) ∧
    ((∃ q ∈ db.pecas_aprovadas ++ db.pecas_reprovadas, q.id_peca = pyStrip (pyUpper id1)) →
      pyStrip (pyUpper id2) = pyStrip (pyUpper id1) →
      (db.adicionar_peca now diskOk (Peca.init id2 w c l u t s)).1 = db ∧
      (db.adicionar_peca now diskOk (Peca.init id2 w c l u t s)).2.1 = false) ∧
    ((∃ q ∈ db.pecas_aprovadas, q.id_peca = pyStrip (pyUpper id2)) →
      (db.remover_peca diskOk id2).2.1 = true) := by
  refine ⟨rfl, ?_, ?_⟩
  · intro hq heq
    obtain ⟨q, hqmem, hqid⟩ := hq
    have hdup := adicionar_duplicado db now diskOk (Peca.init id2 w c l u t s)
      ⟨q, hqmem, by rw [hqid, ← heq]; rfl⟩
    rw [hdup]
    exact ⟨rfl, rfl⟩
  · intro hq
    obtain ⟨q, hqmem, hqid⟩ := hq
    unfold BancoDados.remover_peca
    rw [if_pos (List.any_eq_true.mpr ⟨q, hqmem, by simp [hqid]⟩)]

/-- Witness for `identidade_de_peca_normalizada`: P1 recorded, then a
lowercase whitespace-padded resubmission collides and a padded id removes. -/
theorem identidade_de_peca_normalizada_witness :
    (((estadoInicial 2 criteriosPadrao).adicionar_peca "t1" true
        (Peca.init "p1" 100 "azul" 15 "op" "t1" "M")).1.adicionar_peca "t2" true
        (Peca.init " p1 " 100 "azul" 15 "op" "t2" "M")).2.1 = false ∧
    (((estadoInicial 2 criteriosPadrao).adicionar_peca "t1" true
        (Peca.init "p1" 100 "azul" 15 "op" "t1" "M")).1.remover_peca true "  P1 ").2.1 = true := by
  have h := identidade_de_peca_normalizada "p1" " p1 "
    ((estadoInicial 2 criteriosPadrao).adicionar_peca "t1" true
      (Peca.init "p1" 100 "azul" 15 "op" "t1" "M")).1 "t2" true 100 "azul" 15 "op" "t2" "M"
  have h2 := identidade_de_peca_normalizada "p1" "  P1 "
    ((estadoInicial 2 criteriosPadrao).adicionar_peca "t1" true
      (Peca.init "p1" 100 "azul" 15 "op" "t1" "M")).1 "t2" true 100 "azul" 15 "op" "t2" "M"
  exact ⟨(h.2.1 (by decide) (by decide)).2, h2.2.2 (by decide)⟩

/-- Valid code points round-trip through the character constructor. -/
theorem char_ofNat_toNat (n : ℕ) (h : n.isValidChar) : (Char.ofNat n).toNat = n := by
  simp [Char.ofNat, h, Char.toNat, Char.ofNatAux, UInt32.toNat]

/-- Lowercasing a character twice is the same as lowercasing it once. -/
theorem char_toLower_idem (c : Char) : c.toLower.toLower = c.toLower := by
  simp only [Char.toLower]
  split_ifs with h1 h2 <;> try rfl
  exfalso
  have hv : (c.toNat + 32).isValidChar := Or.inl (by omega)
  rw [char_ofNat_toNat _ hv] at h2
  omega

/-- Lowercasing a character list twice equals lowercasing it once. -/
theorem map_toLower_idem (l : List Char) :
    (l.map Char.toLower).map Char.toLower = l.map Char.toLower := by
  induction l with
  | nil => rfl
  | cons c l ih => simp [ih, char_toLower_idem]

/-- Lowercasing a string is idempotent. -/
theorem pyLower_idem (s : String) : pyLower (pyLower s) = pyLower s :=
  congrArg String.mk (map_toLower_idem s.data)

/-- A list all of whose elements are fixed by a function maps to itself. -/
theorem map_fixa (l : List Char) (f : Char → Char) (h : ∀ c ∈ l, f c = c) :
    l.map f = l := by
  induction l with
  | nil => rfl
  | cons c l ih =>
    rw [List.map_cons, h c (by simp), ih (fun c hc => h c (by simp [hc]))]

/-- A list equal to its own image is fixed element-wise. -/
theorem fixa_of_map (l : List Char) (f : Char → Char) (h : l.map f = l) :
    ∀ c ∈ l, f c = c := by
  induction l with
  | nil => simp
  | cons x xs ih =>
    simp only [List.map_cons, List.cons.injEq] at h
    intro c hc
    rcases List.mem_cons.mp hc with rfl | hc2
    · exact h.1
    · exact ih h.2 c hc2

/-- Stripping preserves the lowercase normal form of a string. -/
theorem pyLower_pyStrip_fixa (s : String) (h : pyLower s = s) :
    pyLower (pyStrip s) = pyStrip s := by
  have hchars := fixa_of_map s.data Char.toLower (congrArg String.data h)
  refine congrArg String.mk (map_fixa _ _ ?_)
  intro c hc
  apply hchars
  have hc2 : c ∈ ((s.data.dropWhile Char.isWhitespace).reverse.dropWhile
      Char.isWhitespace).reverse := hc
  rw [List.mem_reverse] at hc2
  have h1 := (List.dropWhile_sublist _).mem hc2
  rw [List.mem_reverse] at h1
  exact (List.dropWhile_sublist _).mem h1

/-- Every part built by the constructor has its color in lowercase normal
form, so the C1 hypothesis on the part holds for every part the system
creates. -/
theorem peca_init_cor_normalizada (id_peca : String) (peso : ℚ) (cor : String)
    (comprimento : ℚ) (usuario timestamp turno : String) :
    pyLower (Peca.init id_peca peso cor comprimento usuario timestamp turno).cor =
      (Peca.init id_peca peso cor comprimento usuario timestamp turno).cor :=
  pyLower_pyStrip_fixa (pyLower cor) (pyLower_idem cor)

/-- Every criteria store produced by the administrator update path has its
colors in lowercase normal form, so the C1 hypothesis on the criteria holds
for every reachable criteria store. -/
theorem atualizarCores_normalizadas (entradas : List String) :
    ∀ c ∈ atualizarCoresAceitas entradas, pyLower c = c := by
  intro c hc
  obtain ⟨x, hx, hxe⟩ := List.mem_map.mp hc
  rw [← hxe]
  exact pyLower_idem (pyStrip x)

/-- The default criteria also have their colors in lowercase normal form. -/
theorem criteriosPadrao_normalizado :
    ∀ c ∈ criteriosPadrao.cores_aceitas, pyLower c = c := by decide

/-- Case-insensitive membership of an already-lowercased color in an
already-lowercased accepted set coincides with the exact membership test the
code performs. -/
theorem cor_insensivel_mem (cor : String) (cores : List String)
    (hp : pyLower cor = cor) (hc : ∀ c ∈ cores, pyLower c = c) :
    (∃ c ∈ cores, pyLower c = pyLower cor) ↔ cor ∈ cores := by
  constructor
  · rintro ⟨c, hcmem, he⟩
    have : c = cor := by rw [← hc c hcmem, he, hp]
    rw [← this]
    exact hcmem
  · intro hmem
    exact ⟨cor, hmem, rfl⟩

/-- C1: for a part whose color is in normal (lowercase) form — as every part
constructed by the system is — and a criteria store whose accepted colors are
in normal form — as the default configuration and the administrator update
path guarantee — validation approves exactly when the weight is within
`[peso_min, peso_max]` (boundaries included), the color belongs
case-insensitively to the accepted set, and the length is within
`[comprimento_min, comprimento_max]`; the reasons list has exactly one entry
per violated check, in the fixed order weight, color, length, with no
short-circuiting; and approval is exactly emptiness of the reasons list. -/
theorem validar_correto (p : Peca) (criterios : Criterios)
    (hp : pyLower p.cor = p.cor)
    (hc : ∀ c ∈ criterios.cores_aceitas, pyLower c = c) :
    ((p.validar criterios).aprovada = true ↔
      (criterios.peso_min ≤ p.peso ∧ p.peso ≤ criterios.peso_max) ∧
      (∃ c ∈ criterios.cores_aceitas, pyLower c = pyLower p.cor) ∧
      (criterios.comprimento_min ≤ p.comprimento ∧ p.comprimento ≤ criterios.comprimento_max)) ∧
    ((p.validar criterios).motivos_reprovacao =
      (if criterios.peso_min ≤ p.peso ∧ p.peso ≤ criterios.peso_max then []
       else [msgPeso p.peso criterios.peso_min criterios.peso_max]) ++
      (if ∃ c ∈ criterios.cores_aceitas, pyLower c = pyLower p.cor then []
       else [msgCor p.cor criterios.cores_aceitas]) ++
      (if criterios.comprimento_min ≤ p.comprimento ∧ p.comprimento ≤ criterios.comprimento_max then []
       else [msgComprimento p.comprimento criterios.comprimento_min criterios.comprimento_max])) ∧
    ((p.validar criterios).aprovada = (p.validar criterios).motivos_reprovacao.isEmpty) := by
  have hmem := cor_insensivel_mem p.cor criterios.cores_aceitas hp hc
  unfold Peca.validar
  by_cases h1 : criterios.peso_min ≤ p.peso ∧ p.peso ≤ criterios.peso_max <;>
    by_cases h2 : p.cor ∈ criterios.cores_aceitas <;>
    by_cases h3 : criterios.comprimento_min ≤ p.comprimento ∧
      p.comprimento ≤ criterios.comprimento_max <;>
    simp [h1, h2, h3, hmem]

/-- Witness for `validar_correto`: the default criteria approve a conforming
part whose submitted color differs from the accepted one only by case. -/
theorem validar_correto_witness :
    ((Peca.init "p1" 100 "AzUl" 15 "op" "t" "M").validar criteriosPadrao).aprovada = true := by
  have h := validar_correto (Peca.init "p1" 100 "AzUl" 15 "op" "t" "M") criteriosPadrao
    (by decide) (by decide)
  exact (h.1).mpr (by decide)

/-- Saving never changes the in-memory collections. -/
theorem memoria_salvar (db : BancoDados) (ok : Bool) :
    memoria (db.salvar_dados ok).1 = memoria db := by
  cases ok <;> simp [BancoDados.salvar_dados, memoria]

/-- A failed save leaves the state (disk documents included) untouched. -/
theorem salvar_false_id (db : BancoDados) : (db.salvar_dados false).1 = db := rfl

/-- C6 counterexample: with the disk write failing, recording an approved part
still reports success, the in-memory collections keep the new part (the state
differs from the pre-operation state), and the on-disk parts document is left
stale — the operation is neither reported as failed nor rolled back, contrary
to the claim. -/
theorem falha_de_disco_sem_reversao :
    ((estadoInicial 2 criteriosPadrao).adicionar_peca "t" false
        (Peca.init "p1" 100 "azul" 15 "op" "t" "M")).2.1 = true ∧
    ((estadoInicial 2 criteriosPadrao).adicionar_peca "t" false
        (Peca.init "p1" 100 "azul" 15 "op" "t" "M")).1 ≠ estadoInicial 2 criteriosPadrao ∧
    ((estadoInicial 2 criteriosPadrao).adicionar_peca "t" false
        (Peca.init "p1" 100 "azul" 15 "op" "t" "M")).1.pecas_aprovadas.length = 1 ∧
    ((estadoInicial 2 criteriosPadrao).adicionar_peca "t" false
        (Peca.init "p1" 100 "azul" 15 "op" "t" "M")).1.disco_pecas = none := by
  decide

/-- C6 amended: record, remove and edit ignore the outcome of the persistence
write entirely — the reported result and the in-memory collections after a
failed write are identical to those after a successful write (no rollback and
no failure report), and a failed write leaves the on-disk documents stale. -/
theorem operacoes_ignoram_falha_de_disco (db : BancoDados) (now id cor : String)
    (p : Peca) (w l : ℚ) :
    (memoria (db.adicionar_peca now false p).1 = memoria (db.adicionar_peca now true p).1 ∧
      (db.adicionar_peca now false p).2 = (db.adicionar_peca now true p).2 ∧
      (db.adicionar_peca now false p).1.disco_pecas = db.disco_pecas ∧
      (db.adicionar_peca now false p).1.disco_caixas = db.disco_caixas) ∧
    (memoria (db.remover_peca false id).1 = memoria (db.remover_peca true id).1 ∧
      (db.remover_peca false id).2 = (db.remover_peca true id).2 ∧
      (db.remover_peca false id).1.disco_pecas = db.disco_pecas ∧
      (db.remover_peca false id).1.disco_caixas = db.disco_caixas) ∧
    (memoria (db.editar_peca now false id w cor l).1 =
        memoria (db.editar_peca now true id w cor l).1 ∧
      (db.editar_peca now false id w cor l).2 = (db.editar_peca now true id w cor l).2 ∧
      (db.editar_peca now false id w cor l).1.disco_pecas = db.disco_pecas ∧
      (db.editar_peca now false id w cor l).1.disco_caixas = db.disco_caixas) := by
  refine ⟨?_, ?_, ?_⟩
  · simp only [BancoDados.adicionar_peca]
    split_ifs <;> simp [BancoDados.salvar_dados, memoria]
  · simp only [BancoDados.remover_peca]
    split_ifs <;> simp [BancoDados.salvar_dados, memoria]
  · simp only [BancoDados.editar_peca]
    cases hf1 : db.pecas_aprovadas.find? (fun q => q.id_peca == pyStrip (pyUpper id)) with
    | some q =>
      simp only [hf1]
      split_ifs <;> simp [BancoDados.salvar_dados, memoria]
    | none =>
      simp only [hf1]
      cases hf2 : db.pecas_reprovadas.find? (fun q => q.id_peca == pyStrip (pyUpper id)) with
      | some q =>
        simp only [hf2]
        split_ifs <;> simp [BancoDados.salvar_dados, memoria]
      | none =>
        simp [hf2, memoria]

/-- C7 counterexample: in the v014 variant an authentication attempt against
an inactive user returns not-ok with the state — logs included — completely
unchanged: this attempt produces no log entry, contrary to the claim that
every attempt (including attempts on inactive users) is logged. -/
theorem autenticar_inativo_sem_log :
    autenticarV014 (fun _ _ => true) "t"
        ⟨[("bob", ⟨"H", "Bob", "operador", "d", none, false⟩)], [], []⟩ "bob" "pw" =
      (⟨[("bob", ⟨"H", "Bob", "operador", "d", none, false⟩)], [], []⟩, false, none) ∧
    (autenticarV014 (fun _ _ => true) "t"
        ⟨[("bob", ⟨"H", "Bob", "operador", "d", none, false⟩)], [], []⟩ "bob" "pw").1.logs = [] := by
  exact ⟨rfl, rfl⟩

/-- C7 amended: both variants fail closed — an inactive user or a failing
hash check yields not-ok; a successful attempt stamps the stored user's
`last_login` and returns the stamped record; the v0142 variant writes exactly
one log line on every attempt (success, wrong password, unknown user or
inactive user); the v014 variant, however, returns on an inactive user with
no log entry at all, logging only the remaining kinds of attempt. -/
theorem autenticar_contratos (cp : String → String → Bool) (now : String)
    (s : SistemaAutenticacao) (u pw : String) :
    (∀ ud, lookupUsuario s.usuarios u = some ud → ud.ativo = false →
      (autenticarV0142 cp now s u pw).2.1 = false ∧
      (autenticarV014 cp now s u pw).2.1 = false) ∧
    (∀ ud, lookupUsuario s.usuarios u = some ud → ud.ativo = true → cp pw ud.senha = false →
      (autenticarV0142 cp now s u pw).2.1 = false ∧
      (autenticarV014 cp now s u pw).2.1 = false) ∧
    (∀ ud, lookupUsuario s.usuarios u = some ud → ud.ativo = true → cp pw ud.senha = true →
      (autenticarV0142 cp now s u pw).2.1 = true ∧
      (autenticarV0142 cp now s u pw).1.usuarios =
        setUsuario s.usuarios u { ud with ultimo_login := some now } ∧
      (autenticarV0142 cp now s u pw).2.2 = some { ud with ultimo_login := some now }) ∧
    ((autenticarV0142 cp now s u pw).1.logs.length = s.logs.length + 1) ∧
    (∀ ud, lookupUsuario s.usuarios u = some ud → ud.ativo = false →
      autenticarV014 cp now s u pw = (s, false, none)) := by
  refine ⟨?_, ?_, ?_, ?_, ?_⟩
  · intro ud hl ha
    unfold autenticarV0142 autenticarV014
    rw [hl]
    simp [ha]
  · intro ud hl ha hcp
    unfold autenticarV0142 autenticarV014
    rw [hl]
    simp [ha, hcp]
  · intro ud hl ha hcp
    unfold autenticarV0142
    rw [hl]
    simp [ha, hcp]
  · cases hl : lookupUsuario s.usuarios u with
    | none => simp [autenticarV0142, hl]
    | some ud =>
      unfold autenticarV0142
      rw [hl]
      by_cases ha : ud.ativo = true
      · by_cases hcp : cp pw ud.senha = true
        · simp [ha, hcp]
        · simp [ha, hcp]
      · simp [Bool.not_eq_true] at ha
        simp [ha]
  · intro ud hl ha
    unfold autenticarV014
    rw [hl]
    simp [ha]

/-- Witness for `autenticar_contratos`: concrete one-user systems exercising
the success case and the failure cases. -/
theorem autenticar_contratos_witness :
    (autenticarV0142 (fun p h => p == "pw" && h == "H") "t2"
        ⟨[("alice", ⟨"H", "Alice", "operador", "d", none, true⟩)], [], []⟩
        "alice" "pw").2.1 = true ∧
    (autenticarV0142 (fun p h => p == "pw" && h == "H") "t2"
        ⟨[("alice", ⟨"H", "Alice", "operador", "d", none, true⟩)], [], []⟩
        "alice" "pw").2.2 = some ⟨"H", "Alice", "operador", "d", some "t2", true⟩ ∧
    (autenticarV0142 (fun p h => p == "pw" && h == "H") "t2"
        ⟨[("alice", ⟨"H", "Alice", "operador", "d", none, true⟩)], [], []⟩
        "alice" "bad").2.1 = false ∧
    (autenticarV0142 (fun p h => p == "pw" && h == "H") "t2"
        ⟨[("carol", ⟨"H", "Carol", "operador", "d", none, false⟩)], [], []⟩
        "carol" "pw").2.1 = false := by
  have hok := autenticar_contratos (fun p h => p == "pw" && h == "H") "t2"
    ⟨[("alice", ⟨"H", "Alice", "operador", "d", none, true⟩)], [], []⟩ "alice" "pw"
  have hbad := autenticar_contratos (fun p h => p == "pw" && h == "H") "t2"
    ⟨[("alice", ⟨"H", "Alice", "operador", "d", none, true⟩)], [], []⟩ "alice" "bad"
  have hina := autenticar_contratos (fun p h => p == "pw" && h == "H") "t2"
    ⟨[("carol", ⟨"H", "Carol", "operador", "d", none, false⟩)], [], []⟩ "carol" "pw"
  refine ⟨(hok.2.2.1 _ rfl rfl rfl).1, ?_, (hbad.2.1 _ rfl rfl rfl).1, (hina.1 _ rfl rfl).1⟩
  exact (hok.2.2.1 _ rfl rfl rfl).2.2

/-! Field-preservation lemmas for the save step and small list facts. -/

/-- Saving never changes the approved collection. -/
theorem salvar_pecas_aprovadas (db : BancoDados) (ok : Bool) :
    (db.salvar_dados ok).1.pecas_aprovadas = db.pecas_aprovadas := by cases ok <;> rfl

/-- Saving never changes the rejected collection. -/
theorem salvar_pecas_reprovadas (db : BancoDados) (ok : Bool) :
    (db.salvar_dados ok).1.pecas_reprovadas = db.pecas_reprovadas := by cases ok <;> rfl

/-- Saving never changes the closed containers. -/
theorem salvar_caixas_fechadas (db : BancoDados) (ok : Bool) :
    (db.salvar_dados ok).1.caixas_fechadas = db.caixas_fechadas := by cases ok <;> rfl

/-- Saving never changes the current container. -/
theorem salvar_caixa_atual (db : BancoDados) (ok : Bool) :
    (db.salvar_dados ok).1.caixa_atual = db.caixa_atual := by cases ok <;> rfl

/-- Saving never changes the configured capacity. -/
theorem salvar_capacidade (db : BancoDados) (ok : Bool) :
    (db.salvar_dados ok).1.capacidade_caixa = db.capacidade_caixa := by cases ok <;> rfl

/-- Saving never changes the criteria. -/
theorem salvar_criterios (db : BancoDados) (ok : Bool) :
    (db.salvar_dados ok).1.criterios = db.criterios := by cases ok <;> rfl

/-- Removing by id never lengthens a list. -/
theorem removeFirstById_len_le (ps : List Peca) (id : String) :
    (removeFirstById ps id).length ≤ ps.length := by
  induction ps with
  | nil => simp [removeFirstById]
  | cons p ps ih =>
    unfold removeFirstById
    split_ifs <;> simp <;> omega

/-- In-place update by id keeps the length. -/
theorem updateById_len (ps : List Peca) (id : String) (q : Peca) :
    (updateById ps id q).length = ps.length := by
  simp [updateById]

/-- Adding to a container keeps its capacity. -/
theorem caixa_adicionar_capacidade (c : Caixa) (now : String) (p : Peca) :
    (c.adicionar_peca now p).1.capacidade = c.capacidade := by
  simp only [Caixa.adicionar_peca, Caixa.fechar]
  split_ifs <;> rfl

/-- Adding to a container within its bound keeps the bound. -/
theorem caixa_adicionar_len_le (c : Caixa) (now : String) (p : Peca)
    (h : c.pecas.length ≤ c.capacidade) :
    (c.adicionar_peca now p).1.pecas.length ≤ c.capacidade := by
  simp only [Caixa.adicionar_peca, Caixa.fechar]
  split_ifs with h1 h2 <;> simp <;> omega

/-- Mapping a parts-length-preserving container transformation preserves the
list of container sizes. -/
theorem map_len_map_preserva (g : Caixa → Caixa)
    (hg : ∀ x, (g x).pecas.length = x.pecas.length) (l : List Caixa) :
    (l.map g).map (fun c => c.pecas.length) = l.map (fun c => c.pecas.length) := by
  induction l with
  | nil => rfl
  | cons x l ih => simp [hg, ih]

/-- Each single operation preserves the capacity bound. -/
theorem step_caixasLimitadas (db : BancoDados) (op : Op) (h : caixasLimitadas db) :
    caixasLimitadas (step db op) := by
  obtain ⟨h1, h2⟩ := h
  cases op with
  | record now ok p =>
    simp only [step, BancoDados.adicionar_peca]
    split_ifs with hd ha hr hc hc2 hc3
    all_goals constructor
    all_goals simp only [salvar_caixa_atual, salvar_caixas_fechadas]
    all_goals (try exact h1)
    all_goals (try exact h2)
    all_goals first
      | (simp [Caixa.init]; done)
      | (rw [caixa_adicionar_capacidade]
         first
           | exact caixa_adicionar_len_le _ _ _ h1
           | exact caixa_adicionar_len_le _ _ _ (by simp [Caixa.init]))
      | (intro c hcmem
         simp only [List.mem_append, List.mem_singleton] at hcmem
         rcases hcmem with (hcm | rfl) | rfl
         · exact h2 c hcm
         · exact h1
         · rw [caixa_adicionar_capacidade]
           exact caixa_adicionar_len_le _ _ _ (by simp [Caixa.init]))
      | (intro c hcmem
         simp only [List.mem_append, List.mem_singleton] at hcmem
         rcases hcmem with hcm | rfl
         · exact h2 c hcm
         · first
           | exact h1
           | (rw [caixa_adicionar_capacidade]
              exact caixa_adicionar_len_le _ _ _ h1))
  | remove ok id =>
    simp only [step, BancoDados.remover_peca]
    split_ifs with hd1 hd2 <;>
      refine ⟨?_, ?_⟩ <;>
      simp only [salvar_caixa_atual, salvar_caixas_fechadas] <;>
      first
        | exact h1
        | exact h2
        | exact le_trans (removeFirstById_len_le _ _) h1
  | edit now ok id w c l =>
    simp only [step, BancoDados.editar_peca]
    cases hf1 : db.pecas_aprovadas.find? (fun q => q.id_peca == pyStrip (pyUpper id)) with
    | some q =>
      simp only [hf1]
      split_ifs with hap <;>
        refine ⟨?_, ?_⟩ <;>
        simp only [salvar_caixa_atual, salvar_caixas_fechadas] <;>
        first
          | (simp only [updateById_len]
             exact h1)
          | exact le_trans (removeFirstById_len_le _ _) (by simp only [updateById_len]; exact h1)
          | (intro c hc
             simp only [List.mem_map] at hc
             obtain ⟨c0, hc0, rfl⟩ := hc
             simp only [updateById_len]
             exact h2 c0 hc0)
    | none =>
      simp only [hf1]
      cases hf2 : db.pecas_reprovadas.find? (fun q => q.id_peca == pyStrip (pyUpper id)) with
      | some q =>
        simp only [hf2]
        split_ifs with hap <;>
          refine ⟨?_, ?_⟩ <;>
          simp only [salvar_caixa_atual, salvar_caixas_fechadas] <;>
          first
            | (simp only [updateById_len]
               exact h1)
            | (rw [caixa_adicionar_capacidade]
               exact caixa_adicionar_len_le _ _ _ (by simp only [updateById_len]; exact h1))
            | (intro c hc
               simp only [List.mem_map] at hc
               obtain ⟨c0, hc0, rfl⟩ := hc
               simp only [updateById_len]
               exact h2 c0 hc0)
      | none =>
        simp only [hf2]
        exact ⟨h1, h2⟩

/-- Prefix of archived container sizes: no operation changes the length of a
container that is already in `caixas_fechadas`. -/
theorem step_fechadas_prefixo (db : BancoDados) (op : Op) :
    ((step db op).caixas_fechadas.map (fun c => c.pecas.length)).take
        db.caixas_fechadas.length =
      db.caixas_fechadas.map (fun c => c.pecas.length) := by
  have hself : ∀ l : List Caixa,
      ((l.map (fun c => c.pecas.length)).take l.length) = l.map (fun c => c.pecas.length) := by
    intro l
    rw [show l.length = (l.map (fun c => c.pecas.length)).length by simp]
    exact List.take_length _
  have happ : ∀ (l r : List Caixa),
      (((l ++ r).map (fun c => c.pecas.length)).take l.length) =
        l.map (fun c => c.pecas.length) := by
    intro l r
    rw [List.map_append, show l.length = (l.map (fun c => c.pecas.length)).length by simp]
    exact List.take_left _ _
  cases op with
  | record now ok p =>
    simp only [step, BancoDados.adicionar_peca]
    split_ifs <;>
      simp only [salvar_caixas_fechadas] <;>
      first
        | exact hself _
        | exact happ _ _
        | (rw [List.append_assoc]
           exact happ _ _)
  | remove ok id =>
    simp only [step, BancoDados.remover_peca]
    split_ifs <;> simp only [salvar_caixas_fechadas] <;> exact hself _
  | edit now ok id w c l =>
    simp only [step, BancoDados.editar_peca]
    cases hf1 : db.pecas_aprovadas.find? (fun q => q.id_peca == pyStrip (pyUpper id)) with
    | some q =>
      simp only [hf1]
      split_ifs <;>
        simp only [salvar_caixas_fechadas] <;>
        · rw [map_len_map_preserva _ (fun x => by simp [updateById_len]) db.caixas_fechadas]
          exact hself _
    | none =>
      simp only [hf1]
      cases hf2 : db.pecas_reprovadas.find? (fun q => q.id_peca == pyStrip (pyUpper id)) with
      | some q =>
        simp only [hf2]
        split_ifs <;>
          simp only [salvar_caixas_fechadas] <;>
          · rw [map_len_map_preserva _ (fun x => by simp [updateById_len]) db.caixas_fechadas]
            exact hself _
      | none =>
        simp only [hf2]
        exact hself _

/-- C4 counterexample: with capacity 2, record an approved part, record a
rejected one, then edit the rejected part into conformance — the edit fills
the current container and closes it in place (its `closed_at` is stamped)
without archiving it.  Removing the first part afterwards shrinks that very
container from 2 parts to 1 while it remains closed: the length of a closed
container's parts list does change in a subsequent operation. -/
theorem caixa_fechada_perde_peca :
    (run (estadoInicial 2 criteriosPadrao)
        [Op.record "n" true (Peca.init "p1" 100 "azul" 15 "op" "t" "M"),
         Op.record "n" true (Peca.init "p3" 120 "azul" 15 "op" "t" "M"),
         Op.edit "n" true "p3" 100 "azul" 15]).caixa_atual.data_fechamento = some "n" ∧
    (run (estadoInicial 2 criteriosPadrao)
        [Op.record "n" true (Peca.init "p1" 100 "azul" 15 "op" "t" "M"),
         Op.record "n" true (Peca.init "p3" 120 "azul" 15 "op" "t" "M"),
         Op.edit "n" true "p3" 100 "azul" 15]).caixa_atual.pecas.length = 2 ∧
    (run (estadoInicial 2 criteriosPadrao)
        [Op.record "n" true (Peca.init "p1" 100 "azul" 15 "op" "t" "M"),
         Op.record "n" true (Peca.init "p3" 120 "azul" 15 "op" "t" "M"),
         Op.edit "n" true "p3" 100 "azul" 15,
         Op.remove true "p1"]).caixa_atual.data_fechamento = some "n" ∧
    (run (estadoInicial 2 criteriosPadrao)
        [Op.record "n" true (Peca.init "p1" 100 "azul" 15 "op" "t" "M"),
         Op.record "n" true (Peca.init "p3" 120 "azul" 15 "op" "t" "M"),
         Op.edit "n" true "p3" 100 "azul" 15,
         Op.remove true "p1"]).caixa_atual.pecas.length = 1 ∧
    (run (estadoInicial 2 criteriosPadrao)
        [Op.record "n" true (Peca.init "p1" 100 "azul" 15 "op" "t" "M"),
         Op.record "n" true (Peca.init "p3" 120 "azul" 15 "op" "t" "M"),
         Op.edit "n" true "p3" 100 "azul" 15,
         Op.remove true "p1"]).caixa_atual.numero =
      (run (estadoInicial 2 criteriosPadrao)
        [Op.record "n" true (Peca.init "p1" 100 "azul" 15 "op" "t" "M"),
         Op.record "n" true (Peca.init "p3" 120 "azul" 15 "op" "t" "M"),
         Op.edit "n" true "p3" 100 "azul" 15]).caixa_atual.numero := by
  decide

/-- C4 amended: in every state reachable by record, remove and edit from the
initial ledger, every container — current or closed — holds at most its
capacity in parts, and the length of a container already archived in
`caixas_fechadas` is never changed by any further operation.  (The current
container, however, can be closed in place by an edit and still lose parts
before it is archived, as the counterexample shows.) -/
theorem capacidade_nunca_excedida (C : ℕ) (crit : Criterios) (ops : List Op) :
    ((run (estadoInicial C crit) ops).caixa_atual.pecas.length ≤
        (run (estadoInicial C crit) ops).caixa_atual.capacidade ∧
      ∀ c ∈ (run (estadoInicial C crit) ops).caixas_fechadas,
        c.pecas.length ≤ c.capacidade) ∧
    (∀ op,
      ((step (run (estadoInicial C crit) ops) op).caixas_fechadas.map
          (fun c => c.pecas.length)).take
          (run (estadoInicial C crit) ops).caixas_fechadas.length =
        (run (estadoInicial C crit) ops).caixas_fechadas.map (fun c => c.pecas.length)) := by
  constructor
  · have hrun : ∀ (l : List Op) (db : BancoDados), caixasLimitadas db →
        caixasLimitadas (run db l) := by
      intro l
      induction l with
      | nil => intro db h; exact h
      | cons op ops ih =>
        intro db h
        rw [show run db (op :: ops) = run (step db op) ops from rfl]
        exact ih _ (step_caixasLimitadas db op h)
    exact hrun ops (estadoInicial C crit) ⟨by simp [estadoInicial, Caixa.init], by simp [estadoInicial]⟩
  · intro op
    exact step_fechadas_prefixo _ op

/-- Recording a rejected part only appends it to the rejected collection and
persists. -/
theorem adicionar_reprovada (db : BancoDados) (now : String) (ok : Bool) (p : Peca)
    (hdup : ((db.pecas_aprovadas ++ db.pecas_reprovadas).any
        (fun q => q.id_peca == p.id_peca)) = false)
    (hap : (p.validar db.criterios).aprovada = false) :
    db.adicionar_peca now ok p =
      ((({ db with pecas_reprovadas := db.pecas_reprovadas ++ [p.validar db.criterios]
          } : BancoDados).salvar_dados ok).1, true, "Peça adicionada com sucesso") := by
  simp only [BancoDados.adicionar_peca, hdup, hap, Bool.false_eq_true, if_false]

/-- Recording an approved, fresh part while the current container has room:
the part goes into the approved collection and the current container; if that
brings the container to capacity it is closed, archived, and replaced by a
fresh empty container numbered after it. -/
theorem adicionar_aprovada_com_vaga (db : BancoDados) (now : String) (ok : Bool) (p : Peca)
    (hdup : ((db.pecas_aprovadas ++ db.pecas_reprovadas).any
        (fun q => q.id_peca == p.id_peca)) = false)
    (hap : (p.validar db.criterios).aprovada = true)
    (hroom : db.caixa_atual.pecas.length < db.caixa_atual.capacidade) :
    db.adicionar_peca now ok p =
      (if db.caixa_atual.capacidade ≤ db.caixa_atual.pecas.length + 1 then
        ((({ db with
            pecas_aprovadas := db.pecas_aprovadas ++ [p.validar db.criterios],
            caixas_fechadas := db.caixas_fechadas ++
              [Caixa.fechar { db.caixa_atual with
                  pecas := db.caixa_atual.pecas ++ [p.validar db.criterios] } now
                (p.validar db.criterios).usuario],
            caixa_atual := Caixa.init (db.caixas_fechadas.length + 1 + 1) db.capacidade_caixa now
          } : BancoDados).salvar_dados ok).1)
      else
        ((({ db with
            pecas_aprovadas := db.pecas_aprovadas ++ [p.validar db.criterios],
            caixa_atual := { db.caixa_atual with
              pecas := db.caixa_atual.pecas ++ [p.validar db.criterios] }
          } : BancoDados).salvar_dados ok).1),
       true, "Peça adicionada com sucesso") := by
  by_cases hfill : db.caixa_atual.capacidade ≤ db.caixa_atual.pecas.length + 1
  · simp [BancoDados.adicionar_peca, Caixa.adicionar_peca, Caixa.esta_cheia, Caixa.fechar,
      hdup, hap, hroom, hfill, List.length_append]
  · simp [BancoDados.adicionar_peca, Caixa.adicionar_peca, Caixa.esta_cheia, Caixa.fechar,
      hdup, hap, hroom, hfill, List.length_append]

/-- Inserting a fresh element in the middle of a deduplicated id list keeps it
deduplicated. -/
theorem nodup_ids_meio (A R : List Peca) (vp : Peca)
    (h : ((A ++ R).map (fun p => p.id_peca)).Nodup)
    (hfresh : vp.id_peca ∉ (A ++ R).map (fun p => p.id_peca)) :
    (((A ++ [vp]) ++ R).map (fun p => p.id_peca)).Nodup := by
  have hperm : ((A ++ [vp]) ++ R).Perm ((A ++ R) ++ [vp]) := by
    rw [List.append_assoc, List.append_assoc]
    exact List.Perm.append_left A List.perm_append_comm
  refine ((hperm.map (fun p => p.id_peca)).nodup_iff).mpr ?_
  rw [List.map_append]
  refine List.Nodup.append h (by simp) ?_
  intro a ha hb
  simp only [List.map_cons, List.map_nil, List.mem_cons, List.not_mem_nil, or_false] at hb
  subst hb
  exact hfresh ha

/-- Recording any part — duplicate, rejected or approved — preserves the
ledger consistency invariant. -/
theorem record_consistenteLedger (db : BancoDados) (now : String) (ok : Bool) (p : Peca)
    (h : consistenteLedger db) : consistenteLedger (db.adicionar_peca now ok p).1 := by
  obtain ⟨hcap, hceq, hlen, hconcat, hnodup⟩ := h
  by_cases hdup : ((db.pecas_aprovadas ++ db.pecas_reprovadas).any
      (fun q => q.id_peca == p.id_peca)) = true
  · obtain ⟨q, hq, hid⟩ := List.any_eq_true.mp hdup
    rw [adicionar_duplicado db now ok p ⟨q, hq, by simpa using hid⟩]
    exact ⟨hcap, hceq, hlen, hconcat, hnodup⟩
  · have hdup' : ((db.pecas_aprovadas ++ db.pecas_reprovadas).any
        (fun q => q.id_peca == p.id_peca)) = false := by
      rwa [Bool.not_eq_true] at hdup
    have hfresh : p.id_peca ∉
        (db.pecas_aprovadas ++ db.pecas_reprovadas).map (fun q => q.id_peca) := by
      intro hmem
      obtain ⟨q, hq, hid⟩ := List.mem_map.mp hmem
      have := List.any_eq_false.mp hdup' q hq
      simp [hid] at this
    cases hap : (p.validar db.criterios).aprovada with
    | false =>
      rw [adicionar_reprovada db now ok p hdup' hap]
      refine ⟨?_, ?_, ?_, ?_, ?_⟩
      · rw [salvar_capacidade]; exact hcap
      · rw [salvar_caixa_atual, salvar_capacidade]; exact hceq
      · rw [salvar_caixa_atual]; exact hlen
      · rw [salvar_caixas_fechadas, salvar_caixa_atual, salvar_pecas_aprovadas]
        exact hconcat
      · rw [salvar_pecas_aprovadas, salvar_pecas_reprovadas]
        show ((db.pecas_aprovadas ++ (db.pecas_reprovadas ++ [p.validar db.criterios])).map
          (fun p => p.id_peca)).Nodup
        rw [← List.append_assoc]
        have h2 := nodup_ids_meio (db.pecas_aprovadas ++ db.pecas_reprovadas) []
          (p.validar db.criterios) (by simpa using hnodup) (by simpa [validar_id] using hfresh)
        simpa using h2
    | true =>
      rw [adicionar_aprovada_com_vaga db now ok p hdup' hap hlen]
      have hnodup2 : (((db.pecas_aprovadas ++ [p.validar db.criterios]) ++
          db.pecas_reprovadas).map (fun p => p.id_peca)).Nodup :=
        nodup_ids_meio db.pecas_aprovadas db.pecas_reprovadas (p.validar db.criterios)
          hnodup (by simpa [validar_id] using hfresh)
      by_cases hfill : db.caixa_atual.capacidade ≤ db.caixa_atual.pecas.length + 1
      · rw [if_pos hfill]
        refine ⟨?_, ?_, ?_, ?_, ?_⟩
        · rw [salvar_capacidade]; exact hcap
        · rw [salvar_caixa_atual, salvar_capacidade]; simp [Caixa.init]
        · rw [salvar_caixa_atual]; simp [Caixa.init]; omega
        · rw [salvar_caixas_fechadas, salvar_caixa_atual, salvar_pecas_aprovadas]
          simp only [List.flatMap_append, Caixa.init, Caixa.fechar, List.flatMap_cons,
            List.flatMap_nil, List.append_nil]
          rw [← hconcat]
          simp [List.append_assoc]
        · rw [salvar_pecas_aprovadas, salvar_pecas_reprovadas]
          exact hnodup2
      · rw [if_neg hfill]
        refine ⟨?_, ?_, ?_, ?_, ?_⟩
        · rw [salvar_capacidade]; exact hcap
        · rw [salvar_caixa_atual, salvar_capacidade]; exact hceq
        · rw [salvar_caixa_atual]; simp; omega
        · rw [salvar_caixas_fechadas, salvar_caixa_atual, salvar_pecas_aprovadas]
          simp only []
          rw [← hconcat]
          simp [List.append_assoc]
        · rw [salvar_pecas_aprovadas, salvar_pecas_reprovadas]
          exact hnodup2

/-- Any sequence of record operations preserves the consistency invariant. -/
theorem run_records_consistente (ops : List Op) (db : BancoDados)
    (hops : ∀ op ∈ ops, ∃ now ok p, op = Op.record now ok p)
    (h : consistenteLedger db) : consistenteLedger (run db ops) := by
  induction ops generalizing db with
  | nil => exact h
  | cons op ops ih =>
    obtain ⟨now, ok, p, rfl⟩ := hops op (by simp)
    rw [show run db (Op.record now ok p :: ops) =
      run (step db (Op.record now ok p)) ops from rfl]
    exact ih _ (fun o ho => hops o (List.mem_cons_of_mem _ ho))
      (record_consistenteLedger db now ok p h)

/-- C5 counterexample: with capacity 2, record P1 and P2 (container 1 closes
holding both) and then remove P1.  P1 leaves the approved collection but the
closed container still holds it: a part appearing in a container no longer
appears in the approved collection, contrary to the claimed invariant over
sequences that include a remove. -/
theorem remocao_deixa_peca_em_caixa_fechada :
    (run (estadoInicial 2 criteriosPadrao)
        [Op.record "n" true (Peca.init "p1" 100 "azul" 15 "op" "t" "M"),
         Op.record "n" true (Peca.init "p2" 100 "azul" 15 "op" "t" "M"),
         Op.remove true "p1"]).pecas_aprovadas.map (fun p => p.id_peca) = ["P2"] ∧
    "P1" ∈ ((run (estadoInicial 2 criteriosPadrao)
        [Op.record "n" true (Peca.init "p1" 100 "azul" 15 "op" "t" "M"),
         Op.record "n" true (Peca.init "p2" 100 "azul" 15 "op" "t" "M"),
         Op.remove true "p1"]).caixas_fechadas.flatMap (fun c => c.pecas)).map
      (fun p => p.id_peca) ∧
    "P1" ∉ ((run (estadoInicial 2 criteriosPadrao)
        [Op.record "n" true (Peca.init "p1" 100 "azul" 15 "op" "t" "M"),
         Op.record "n" true (Peca.init "p2" 100 "azul" 15 "op" "t" "M"),
         Op.remove true "p1"]).pecas_aprovadas ++
      (run (estadoInicial 2 criteriosPadrao)
        [Op.record "n" true (Peca.init "p1" 100 "azul" 15 "op" "t" "M"),
         Op.record "n" true (Peca.init "p2" 100 "azul" 15 "op" "t" "M"),
         Op.remove true "p1"]).pecas_reprovadas).map (fun p => p.id_peca) := by
  refine ⟨by decide, by decide, by decide⟩

/-- C5 amended: for every sequence of record operations (any mix of approved,
rejected and duplicate submissions) with capacity at least 1, the membership
invariant holds: concatenating the closed containers' parts with the current
container's parts gives exactly the approved collection, no id occurs twice
across approved and rejected, every approved part occurs exactly once across
all containers, and every part in any container (closed or current) is in the
approved collection.  Remove and edit break the container side of the
invariant because closed containers are never updated, as the counterexample
shows. -/
theorem pecas_e_caixas_consistentes_para_records (C : ℕ) (crit : Criterios)
    (ops : List Op) (hC : 1 ≤ C)
    (hops : ∀ op ∈ ops, ∃ now ok p, op = Op.record now ok p) :
    ((run (estadoInicial C crit) ops).caixas_fechadas.flatMap (fun c => c.pecas)) ++
        (run (estadoInicial C crit) ops).caixa_atual.pecas =
      (run (estadoInicial C crit) ops).pecas_aprovadas ∧
    (((run (estadoInicial C crit) ops).pecas_aprovadas ++
        (run (estadoInicial C crit) ops).pecas_reprovadas).map
      (fun p => p.id_peca)).Nodup ∧
    (∀ p ∈ (run (estadoInicial C crit) ops).pecas_aprovadas,
      ((((run (estadoInicial C crit) ops).caixas_fechadas.flatMap (fun c => c.pecas)) ++
          (run (estadoInicial C crit) ops).caixa_atual.pecas).map
        (fun q => q.id_peca)).count p.id_peca = 1) ∧
    (∀ c ∈ (run (estadoInicial C crit) ops).caixas_fechadas, ∀ p ∈ c.pecas,
      p ∈ (run (estadoInicial C crit) ops).pecas_aprovadas) ∧
    (∀ p ∈ (run (estadoInicial C crit) ops).caixa_atual.pecas,
      p ∈ (run (estadoInicial C crit) ops).pecas_aprovadas) := by
  have hini : consistenteLedger (estadoInicial C crit) := by
    refine ⟨hC, rfl, ?_, rfl, by simp [estadoInicial]⟩
    simpa [estadoInicial, Caixa.init] using hC
  have hinv := run_records_consistente ops (estadoInicial C crit) hops hini
  obtain ⟨-, -, -, hconcat, hnodup⟩ := hinv
  have hA : ((run (estadoInicial C crit) ops).pecas_aprovadas.map
      (fun q => q.id_peca)).Nodup := by
    have h2 := hnodup
    rw [List.map_append] at h2
    exact h2.of_append_left
  refine ⟨hconcat, hnodup, ?_, ?_, ?_⟩
  · intro p hp
    rw [hconcat]
    exact List.count_eq_one_of_mem hA (List.mem_map_of_mem _ hp)
  · intro c hc p hp
    rw [← hconcat]
    exact List.mem_append_left _ (List.mem_flatMap.mpr ⟨c, hc, hp⟩)
  · intro p hp
    rw [← hconcat]
    exact List.mem_append_right _ hp

/-- Witness for `pecas_e_caixas_consistentes_para_records` on a concrete
two-record sequence at capacity 2. -/
theorem pecas_e_caixas_consistentes_para_records_witness :
    ((run (estadoInicial 2 criteriosPadrao)
        [Op.record "n" true (Peca.init "p1" 100 "azul" 15 "op" "t" "M"),
         Op.record "n" true (Peca.init "p2" 120 "azul" 15 "op" "t" "M")]).caixas_fechadas.flatMap
        (fun c => c.pecas)) ++
      (run (estadoInicial 2 criteriosPadrao)
        [Op.record "n" true (Peca.init "p1" 100 "azul" 15 "op" "t" "M"),
         Op.record "n" true (Peca.init "p2" 120 "azul" 15 "op" "t" "M")]).caixa_atual.pecas =
      (run (estadoInicial 2 criteriosPadrao)
        [Op.record "n" true (Peca.init "p1" 100 "azul" 15 "op" "t" "M"),
         Op.record "n" true (Peca.init "p2" 120 "azul" 15 "op" "t" "M")]).pecas_aprovadas ∧
    (((run (estadoInicial 2 criteriosPadrao)
        [Op.record "n" true (Peca.init "p1" 100 "azul" 15 "op" "t" "M"),
         Op.record "n" true (Peca.init "p2" 120 "azul" 15 "op" "t" "M")]).pecas_aprovadas ++
      (run (estadoInicial 2 criteriosPadrao)
        [Op.record "n" true (Peca.init "p1" 100 "azul" 15 "op" "t" "M"),
         Op.record "n" true (Peca.init "p2" 120 "azul" 15 "op" "t" "M")]).pecas_reprovadas).map
      (fun p => p.id_peca)).Nodup := by
  have h := pecas_e_caixas_consistentes_para_records 2 criteriosPadrao
    [Op.record "n" true (Peca.init "p1" 100 "azul" 15 "op" "t" "M"),
     Op.record "n" true (Peca.init "p2" 120 "azul" 15 "op" "t" "M")]
    (by decide)
    (by
      intro op hop
      simp only [List.mem_cons, List.not_mem_nil, or_false] at hop
      rcases hop with rfl | rfl
      · exact ⟨_, _, _, rfl⟩
      · exact ⟨_, _, _, rfl⟩)
  exact ⟨h.1, h.2.1⟩

/-- Unfolding one trailing record submission. -/
theorem runRecords_append_single (C : ℕ) (crit : Criterios) (now : String)
    (ps : List Peca) (p : Peca) :
    runRecords C crit now (ps ++ [p]) =
      ((runRecords C crit now ps).adicionar_peca now true p).1 := by
  simp [runRecords, run, step, List.foldl_append]

/-- Packing invariant for a sequence of approved, distinct-id submissions
from the empty ledger: the approved collection is the validated parts in
order, nothing is rejected, the current container is open with the configured
capacity and numbered after the archived ones, the containers partition the
approved parts in order, every archived container is closed and exactly full,
and the counts satisfy `length = archived * C + current` with `current < C`. -/
theorem runRecords_empacota (C : ℕ) (crit : Criterios) (now : String) (ps : List Peca)
    (hC : 1 ≤ C)
    (hval : ∀ p ∈ ps, (p.validar crit).aprovada = true)
    (hids : (ps.map (fun p => p.id_peca)).Nodup) :
    (runRecords C crit now ps).pecas_aprovadas = ps.map (fun p => p.validar crit) ∧
    (runRecords C crit now ps).pecas_reprovadas = [] ∧
    (runRecords C crit now ps).criterios = crit ∧
    (runRecords C crit now ps).capacidade_caixa = C ∧
    (runRecords C crit now ps).caixa_atual.capacidade = C ∧
    (runRecords C crit now ps).caixa_atual.data_fechamento = none ∧
    (runRecords C crit now ps).caixa_atual.numero =
      (runRecords C crit now ps).caixas_fechadas.length + 1 ∧
    ((runRecords C crit now ps).caixas_fechadas.flatMap (fun c => c.pecas)) ++
      (runRecords C crit now ps).caixa_atual.pecas = ps.map (fun p => p.validar crit) ∧
    (∀ c ∈ (runRecords C crit now ps).caixas_fechadas,
      c.pecas.length = C ∧ c.data_fechamento = some now ∧ c.capacidade = C) ∧
    ps.length = (runRecords C crit now ps).caixas_fechadas.length * C +
      (runRecords C crit now ps).caixa_atual.pecas.length ∧
    (runRecords C crit now ps).caixa_atual.pecas.length < C := by
  induction ps using List.reverseRecOn with
  | nil =>
    refine ⟨rfl, rfl, rfl, rfl, rfl, rfl, rfl, rfl, ?_, ?_, ?_⟩
    · intro c hc
      simp [runRecords, run, estadoInicial] at hc
    · simp [runRecords, run, estadoInicial, Caixa.init]
    · simpa [runRecords, run, estadoInicial, Caixa.init] using hC
  | append_singleton ps p ih =>
    have hval2 : ∀ q ∈ ps, (q.validar crit).aprovada = true :=
      fun q hq => hval q (by simp [hq])
    have hvp : (p.validar crit).aprovada = true := hval p (by simp)
    have hids2 : (ps.map (fun q => q.id_peca)).Nodup := by
      rw [List.map_append] at hids
      exact hids.of_append_left
    have hfresh : p.id_peca ∉ ps.map (fun q => q.id_peca) := by
      rw [List.map_append] at hids
      simp only [List.map_cons, List.map_nil] at hids
      simp [List.nodup_append] at hids
      intro hmem
      obtain ⟨x, hx, hxe⟩ := List.mem_map.mp hmem
      exact hids.2 x hx hxe
    obtain ⟨h1, h2, h3, h4, h5, h6, h7, h8, h9, h10, h11⟩ := ih hval2 hids2
    set st := runRecords C crit now ps with hst
    have hdup : ((st.pecas_aprovadas ++ st.pecas_reprovadas).any
        (fun q => q.id_peca == p.id_peca)) = false := by
      rw [h1, h2, List.append_nil, List.any_eq_false]
      intro q hq
      obtain ⟨x, hx, rfl⟩ := List.mem_map.mp hq
      have hne : x.id_peca ≠ p.id_peca :=
        fun heq => hfresh (heq ▸ List.mem_map_of_mem _ hx)
      simp [validar_id, hne]
    have hap : (p.validar st.criterios).aprovada = true := by rw [h3]; exact hvp
    have hroom : st.caixa_atual.pecas.length < st.caixa_atual.capacidade := by
      rw [h5]; exact h11
    rw [runRecords_append_single, ← hst,
      adicionar_aprovada_com_vaga st now true p hdup hap hroom]
    by_cases hfill : st.caixa_atual.capacidade ≤ st.caixa_atual.pecas.length + 1
    · rw [if_pos hfill]
      have hlen1 : st.caixa_atual.pecas.length + 1 = C := by
        rw [h5] at hfill
        omega
      refine ⟨?_, ?_, ?_, ?_, ?_, ?_, ?_, ?_, ?_, ?_, ?_⟩
      · rw [salvar_pecas_aprovadas, h3, h1, List.map_append]
        rfl
      · rw [salvar_pecas_reprovadas]
        exact h2
      · rw [salvar_criterios]
        exact h3
      · rw [salvar_capacidade]
        exact h4
      · rw [salvar_caixa_atual]
        simpa [Caixa.init] using h4
      · rw [salvar_caixa_atual]
        simp [Caixa.init]
      · rw [salvar_caixa_atual, salvar_caixas_fechadas]
        simp [Caixa.init]
      · rw [salvar_caixa_atual, salvar_caixas_fechadas, h3]
        simp only [List.flatMap_append, List.flatMap_cons, List.flatMap_nil,
          Caixa.fechar, Caixa.init, List.append_nil]
        rw [← List.append_assoc, h8, List.map_append]
        rfl
      · intro c hc
        rw [salvar_caixas_fechadas] at hc
        rcases List.mem_append.mp hc with hcm | hcm
        · exact h9 c hcm
        · simp only [List.mem_singleton] at hcm
          subst hcm
          refine ⟨?_, rfl, ?_⟩
          · simp only [Caixa.fechar, List.length_append, List.length_cons,
              List.length_nil]
            omega
          · simpa [Caixa.fechar] using h5
      · rw [salvar_caixa_atual, salvar_caixas_fechadas]
        simp only [Caixa.init, List.length_append, List.length_cons, List.length_nil,
          List.length_map]
        rw [Nat.succ_mul]
        have hg : ∀ a : ℕ, ps.length = a + st.caixa_atual.pecas.length →
            ps.length + 1 = a + C + 0 := by
          intro a ha
          omega
        exact hg _ h10
      · rw [salvar_caixa_atual]
        simp [Caixa.init]
        omega
    · rw [if_neg hfill]
      have hlt : st.caixa_atual.pecas.length + 1 < C := by
        rw [h5] at hfill
        omega
      refine ⟨?_, ?_, ?_, ?_, ?_, ?_, ?_, ?_, ?_, ?_, ?_⟩
      · rw [salvar_pecas_aprovadas, h3, h1, List.map_append]
        rfl
      · rw [salvar_pecas_reprovadas]
        exact h2
      · rw [salvar_criterios]
        exact h3
      · rw [salvar_capacidade]
        exact h4
      · rw [salvar_caixa_atual]
        exact h5
      · rw [salvar_caixa_atual]
        exact h6
      · rw [salvar_caixa_atual, salvar_caixas_fechadas]
        exact h7
      · rw [salvar_caixa_atual, salvar_caixas_fechadas, h3]
        rw [← List.append_assoc, h8, List.map_append]
        rfl
      · intro c hc
        rw [salvar_caixas_fechadas] at hc
        exact h9 c hc
      · rw [salvar_caixa_atual, salvar_caixas_fechadas]
        simp only [List.length_append, List.length_cons, List.length_nil,
          List.length_map]
        have hg : ∀ a : ℕ, ps.length = a + st.caixa_atual.pecas.length →
            ps.length + 1 = a + (st.caixa_atual.pecas.length + 1) := by
          intro a ha
          omega
        exact hg _ h10
      · rw [salvar_caixa_atual]
        simpa using hlt


/-- C2 amended: from the empty ledger with capacity C at least 1, after
exactly C approved parts the ledger has exactly one closed container holding
all C validated parts and a fresh open container numbered 2; after C + 1
approved parts there is one closed container and the current container holds
exactly one part provided C is at least 2 — for C = 1 every part immediately
fills and closes its container, so after C + 1 = 2 parts there are two closed
containers and the current container is empty. -/
theorem empacotamento_na_capacidade (C : ℕ) (crit : Criterios) (now : String)
    (ps : List Peca) (hC : 1 ≤ C)
    (hval : ∀ p ∈ ps, (p.validar crit).aprovada = true)
    (hids : (ps.map (fun p => p.id_peca)).Nodup) :
    (ps.length = C →
      ∃ c, (runRecords C crit now ps).caixas_fechadas = [c] ∧
        c.pecas = ps.map (fun p => p.validar crit) ∧
        c.data_fechamento = some now ∧
        (runRecords C crit now ps).caixa_atual.numero = 2 ∧
        (runRecords C crit now ps).caixa_atual.pecas = [] ∧
        (runRecords C crit now ps).caixa_atual.data_fechamento = none) ∧
    (ps.length = C + 1 → 2 ≤ C →
      (runRecords C crit now ps).caixas_fechadas.length = 1 ∧
      (runRecords C crit now ps).caixa_atual.pecas.length = 1) ∧
    (ps.length = C + 1 → C = 1 →
      (runRecords C crit now ps).caixas_fechadas.length = 2 ∧
      (runRecords C crit now ps).caixa_atual.pecas = []) := by
  obtain ⟨h1, h2, h3, h4, h5, h6, h7, h8, h9, h10, h11⟩ :=
    runRecords_empacota C crit now ps hC hval hids
  refine ⟨?_, ?_, ?_⟩
  · intro hlen
    have hone : (runRecords C crit now ps).caixas_fechadas.length = 1 ∧
        (runRecords C crit now ps).caixa_atual.pecas.length = 0 := by
      rw [hlen] at h10
      generalize hnF : (runRecords C crit now ps).caixas_fechadas.length = nF at h10 ⊢
      generalize hr : (runRecords C crit now ps).caixa_atual.pecas.length = r at h10 h11 ⊢
      match nF with
      | 0 =>
        exfalso
        simp at h10
        omega
      | 1 =>
        refine ⟨rfl, ?_⟩
        simp at h10
        omega
      | n + 2 =>
        exfalso
        have hge : 2 * C ≤ (n + 2) * C := Nat.mul_le_mul_right C (by omega)
        generalize hx : (n + 2) * C = x at h10 hge
        omega
    obtain ⟨hF1, hA0⟩ := hone
    obtain ⟨c, hc⟩ := List.length_eq_one.mp hF1
    have hA : (runRecords C crit now ps).caixa_atual.pecas = [] :=
      List.length_eq_zero.mp hA0
    rw [hc, hA] at h8
    simp only [List.flatMap_cons, List.flatMap_nil, List.append_nil] at h8
    refine ⟨c, hc, h8, (h9 c (by rw [hc]; simp)).2.1, ?_, hA, h6⟩
    rw [h7, hF1]
  · intro hlen hC2
    rw [hlen] at h10
    generalize hnF : (runRecords C crit now ps).caixas_fechadas.length = nF at h10 ⊢
    generalize hr : (runRecords C crit now ps).caixa_atual.pecas.length = r at h10 h11 ⊢
    match nF with
    | 0 =>
      exfalso
      simp at h10
      omega
    | 1 =>
      refine ⟨rfl, ?_⟩
      simp at h10
      omega
    | n + 2 =>
      exfalso
      have hge : 2 * C ≤ (n + 2) * C := Nat.mul_le_mul_right C (by omega)
      generalize hx : (n + 2) * C = x at h10 hge
      omega
  · intro hlen hC1
    subst hC1
    rw [hlen] at h10
    simp only [Nat.mul_one] at h10
    have hr0 : (runRecords 1 crit now ps).caixa_atual.pecas.length = 0 := by omega
    exact ⟨by omega, List.length_eq_zero.mp hr0⟩

/-- C2 counterexample: at capacity C = 1 (allowed by the claim, which only
requires C at least 1), after C + 1 = 2 approved parts the ledger has two
closed containers and an empty current container — not the one closed
container with one part in the current container that the claim predicts. -/
theorem capacidade_um_refuta_contagem :
    (runRecords 1 criteriosPadrao "n"
        [Peca.init "p1" 100 "azul" 15 "op" "t" "M",
         Peca.init "p2" 100 "azul" 15 "op" "t" "M"]).caixas_fechadas.length = 2 ∧
    (runRecords 1 criteriosPadrao "n"
        [Peca.init "p1" 100 "azul" 15 "op" "t" "M",
         Peca.init "p2" 100 "azul" 15 "op" "t" "M"]).caixa_atual.pecas.length = 0 ∧
    ¬((runRecords 1 criteriosPadrao "n"
        [Peca.init "p1" 100 "azul" 15 "op" "t" "M",
         Peca.init "p2" 100 "azul" 15 "op" "t" "M"]).caixas_fechadas.length = 1 ∧
      (runRecords 1 criteriosPadrao "n"
        [Peca.init "p1" 100 "azul" 15 "op" "t" "M",
         Peca.init "p2" 100 "azul" 15 "op" "t" "M"]).caixa_atual.pecas.length = 1) := by
  decide

/-- Witness for `empacotamento_na_capacidade` at capacity 2 with two and
three approved parts. -/
theorem empacotamento_na_capacidade_witness :
    (∃ c, (runRecords 2 criteriosPadrao "n"
        [Peca.init "p1" 100 "azul" 15 "op" "t" "M",
         Peca.init "p2" 100 "azul" 15 "op" "t" "M"]).caixas_fechadas = [c] ∧
      c.pecas = [Peca.init "p1" 100 "azul" 15 "op" "t" "M",
         Peca.init "p2" 100 "azul" 15 "op" "t" "M"].map
          (fun p => p.validar criteriosPadrao) ∧
      c.data_fechamento = some "n" ∧
      (runRecords 2 criteriosPadrao "n"
        [Peca.init "p1" 100 "azul" 15 "op" "t" "M",
         Peca.init "p2" 100 "azul" 15 "op" "t" "M"]).caixa_atual.numero = 2 ∧
      (runRecords 2 criteriosPadrao "n"
        [Peca.init "p1" 100 "azul" 15 "op" "t" "M",
         Peca.init "p2" 100 "azul" 15 "op" "t" "M"]).caixa_atual.pecas = [] ∧
      (runRecords 2 criteriosPadrao "n"
        [Peca.init "p1" 100 "azul" 15 "op" "t" "M",
         Peca.init "p2" 100 "azul" 15 "op" "t" "M"]).caixa_atual.data_fechamento = none) ∧
    ((runRecords 2 criteriosPadrao "n"
        [Peca.init "p1" 100 "azul" 15 "op" "t" "M",
         Peca.init "p2" 100 "azul" 15 "op" "t" "M",
         Peca.init "p3" 100 "azul" 15 "op" "t" "M"]).caixas_fechadas.length = 1 ∧
      (runRecords 2 criteriosPadrao "n"
        [Peca.init "p1" 100 "azul" 15 "op" "t" "M",
         Peca.init "p2" 100 "azul" 15 "op" "t" "M",
         Peca.init "p3" 100 "azul" 15 "op" "t" "M"]).caixa_atual.pecas.length = 1) := by
  have ha := empacotamento_na_capacidade 2 criteriosPadrao "n"
    [Peca.init "p1" 100 "azul" 15 "op" "t" "M",
     Peca.init "p2" 100 "azul" 15 "op" "t" "M"] (by decide) (by decide) (by decide)
  have hb := empacotamento_na_capacidade 2 criteriosPadrao "n"
    [Peca.init "p1" 100 "azul" 15 "op" "t" "M",
     Peca.init "p2" 100 "azul" 15 "op" "t" "M",
     Peca.init "p3" 100 "azul" 15 "op" "t" "M"] (by decide) (by decide) (by decide)
  exact ⟨ha.1 (by decide), hb.2.1 (by decide) (by decide)⟩
end AdmTools
